import Mathlib

/-!
Verification development for the `agent-interview-cli` repository.

The repository's data layer is JSON: question documents, snapshot data
blocks and answer lists are all parsed/produced as JSON values.  We embed
JSON values as the inductive type `JVal` (numbers are restricted to
integers; the repository's documents carry only integer numbers, strings,
booleans, arrays and objects).  JavaScript field access, truthiness and
string coercion are modelled by the `J*` helpers below, following
ECMAScript semantics on this value domain.
-/

namespace AgentInterview

/-- JSON values (numbers restricted to integers). -/
inductive JVal where
  | null : JVal
  | bool (b : Bool) : JVal
  | num (n : Int) : JVal
  | str (s : String) : JVal
  | arr (xs : List JVal) : JVal
  | obj (fs : List (String × JVal)) : JVal

mutual

/-- Decidable equality on JSON values. -/
def JVal.beq : JVal → JVal → Bool
  | .null, .null => true
  | .bool a, .bool b => a == b
  | .num a, .num b => a == b
  | .str a, .str b => a == b
  | .arr xs, .arr ys => JVal.beqList xs ys
  | .obj fs, .obj gs => JVal.beqFields fs gs
  | _, _ => false

def JVal.beqList : List JVal → List JVal → Bool
  | [], [] => true
  | x :: xs, y :: ys => JVal.beq x y && JVal.beqList xs ys
  | _, _ => false

def JVal.beqFields : List (String × JVal) → List (String × JVal) → Bool
  | [], [] => true
  | (k, v) :: fs, (l, w) :: gs => k == l && JVal.beq v w && JVal.beqFields fs gs
  | _, _ => false

end

mutual

theorem JVal.beq_iff : ∀ a b : JVal, JVal.beq a b = true ↔ a = b
  | .null, .null => by simp [JVal.beq]
  | .null, .bool _ | .null, .num _ | .null, .str _ | .null, .arr _ | .null, .obj _ => by
      simp [JVal.beq]
  | .bool _, .null | .bool _, .num _ | .bool _, .str _ | .bool _, .arr _ | .bool _, .obj _ => by
      simp [JVal.beq]
  | .bool a, .bool b => by simp [JVal.beq]
  | .num a, .num b => by simp [JVal.beq]
  | .num _, .null | .num _, .bool _ | .num _, .str _ | .num _, .arr _ | .num _, .obj _ => by
      simp [JVal.beq]
  | .str a, .str b => by simp [JVal.beq]
  | .str _, .null | .str _, .bool _ | .str _, .num _ | .str _, .arr _ | .str _, .obj _ => by
      simp [JVal.beq]
  | .arr xs, .arr ys => by
      simp only [JVal.beq, JVal.arr.injEq]
      exact JVal.beqList_iff xs ys
  | .arr _, .null | .arr _, .bool _ | .arr _, .num _ | .arr _, .str _ | .arr _, .obj _ => by
      simp [JVal.beq]
  | .obj fs, .obj gs => by
      simp only [JVal.beq, JVal.obj.injEq]
      exact JVal.beqFields_iff fs gs
  | .obj _, .null | .obj _, .bool _ | .obj _, .num _ | .obj _, .str _ | .obj _, .arr _ => by
      simp [JVal.beq]

theorem JVal.beqList_iff : ∀ xs ys : List JVal, JVal.beqList xs ys = true ↔ xs = ys
  | [], [] => by simp [JVal.beqList]
  | [], _ :: _ => by simp [JVal.beqList]
  | _ :: _, [] => by simp [JVal.beqList]
  | x :: xs, y :: ys => by
      simp only [JVal.beqList, Bool.and_eq_true, List.cons.injEq,
        JVal.beq_iff x y, JVal.beqList_iff xs ys]

theorem JVal.beqFields_iff :
    ∀ fs gs : List (String × JVal), JVal.beqFields fs gs = true ↔ fs = gs
  | [], [] => by simp [JVal.beqFields]
  | [], _ :: _ => by simp [JVal.beqFields]
  | _ :: _, [] => by simp [JVal.beqFields]
  | (k, v) :: fs, (l, w) :: gs => by
      simp only [JVal.beqFields, Bool.and_eq_true, List.cons.injEq, Prod.mk.injEq,
        beq_iff_eq, JVal.beq_iff v w, JVal.beqFields_iff fs gs, and_assoc]

end

instance : DecidableEq JVal := fun a b =>
  decidable_of_iff (JVal.beq a b = true) (JVal.beq_iff a b)

instance {ε α : Type} [DecidableEq ε] [DecidableEq α] : DecidableEq (Except ε α) := fun x y =>
  match x, y with
  | .ok a, .ok b =>
      if h : a = b then .isTrue (by rw [h])
      else .isFalse (by intro hh; cases hh; exact h rfl)
  | .error a, .error b =>
      if h : a = b then .isTrue (by rw [h])
      else .isFalse (by intro hh; cases hh; exact h rfl)
  | .ok _, .error _ => .isFalse (by intro hh; cases hh)
  | .error _, .ok _ => .isFalse (by intro hh; cases hh)

/-- JavaScript property read `v[k]` on a JSON value: only objects have own
string-keyed data properties; everything else (including arrays, whose
numeric indices are irrelevant here) yields `undefined`, modelled as
`none`. -/
def JVal.getField (v : JVal) (k : String) : Option JVal :=
  match v with
  | .obj fs => fs.lookup k
  | _ => none

/-- JavaScript `k in v` (own-property presence). -/
def JVal.hasField (v : JVal) (k : String) : Bool :=
  (v.getField k).isSome

/-- Replace the value of the first binding of `k` in an association list. -/
def setFieldIn : List (String × JVal) → String → JVal → List (String × JVal)
  | [], _, _ => []
  | (l, u) :: fs, k, w =>
      if l = k then (l, w) :: fs else (l, u) :: setFieldIn fs k w

/-- Replace the value of the first binding of `k`.  On JSON objects
produced by a parser keys are unique, so this models JavaScript property
assignment `v[k] = w`; on non-objects it is the identity. -/
def JVal.setField (v : JVal) (k : String) (w : JVal) : JVal :=
  match v with
  | .obj fs => .obj (setFieldIn fs k w)
  | _ => v

/-- JavaScript truthiness of a JSON value (`null`, `false`, `0` and `""`
are falsy; objects and arrays are always truthy). -/
def JVal.truthy : JVal → Bool
  | .null => false
  | .bool b => b
  | .num n => n != 0
  | .str s => s ≠ ""
  | .arr _ => true
  | .obj _ => true

/-- JavaScript `typeof v === "object"` on a JSON value (`null` and arrays
both satisfy it). -/
def JVal.typeofObject : JVal → Bool
  | .null => true
  | .arr _ => true
  | .obj _ => true
  | _ => false

/-- Model of `Array.isArray`. -/
def JVal.isArr : JVal → Bool
  | .arr _ => true
  | _ => false

/-- Model of `typeof v === "string"`. -/
def JVal.isStr : JVal → Bool
  | .str _ => true
  | _ => false

/-- Project a JSON string, `none` otherwise. -/
def JVal.asStr : JVal → Option String
  | .str s => some s
  | _ => none

mutual

/-- JavaScript string coercion (template-literal interpolation) of a JSON
value: arrays join their elements with commas, objects print as
`[object Object]`. -/
def JVal.toJsString : JVal → String
  | .null => "null"
  | .bool true => "true"
  | .bool false => "false"
  | .num n => toString n
  | .str s => s
  | .arr xs => String.intercalate "," (JVal.toJsStringElems xs)
  | .obj _ => "[object Object]"

/-- Element coercion inside `Array.prototype.join`: `null` elements print
as the empty string. -/
def JVal.toJsStringElems : List JVal → List String
  | [] => []
  | .null :: xs => "" :: JVal.toJsStringElems xs
  | v :: xs => JVal.toJsString v :: JVal.toJsStringElems xs

end

/-! ## Path helpers (node `path`/`os` collaborators, POSIX semantics)

The loader resolves file paths with `node:path` and `node:os`.  We model
the POSIX behaviour of the calls the loader makes; the ambient
`os.homedir()` becomes an explicit `home` parameter.  String scanning is
implemented over the character list by structural recursion. -/

/-- Split the input around the first occurrence of `needle`: the part
before it and the part after it. -/
def findFirstSub (needle : List Char) : List Char → Option (List Char × List Char)
  | [] => if needle.isEmpty then some ([], []) else none
  | c :: cs =>
      if needle.isPrefixOf (c :: cs) then some ([], (c :: cs).drop needle.length)
      else
        match findFirstSub needle cs with
        | some (pre, post) => some (c :: pre, post)
        | none => none

/-- Model of `s.includes(t)`. -/
def containsSub (s t : String) : Bool :=
  (findFirstSub t.data s.data).isSome

/-- Model of `s.startsWith(t)`. -/
def strStartsWith (s t : String) : Bool :=
  t.data.isPrefixOf s.data

/-- Model of `s.endsWith(t)`. -/
def strEndsWith (s t : String) : Bool :=
  t.data.reverse.isPrefixOf s.data.reverse

/-- Model of `path.isAbsolute` (POSIX): the path starts with a separator. -/
def isAbsolute (p : String) : Bool :=
  strStartsWith p "/"

/-- Model of `path.join(a, b)` (POSIX) for the dot-segment-free paths this
repository produces: concatenation with a single separator.  Dot-segment
normalisation is not modelled. -/
def joinPath (a b : String) : String :=
  if a = "" then b
  else if strEndsWith a "/" then a ++ b
  else a ++ "/" ++ b

/-- The function `expandHome` from `src/loader.ts`: expand a leading `~` to the home
directory (an explicit parameter here, `os.homedir()` in the source). -/
def expandHome (home : String) (value : String) : String :=
  if value = "~" then home
  else if strStartsWith value "~/" || strStartsWith value "~\\" then
    joinPath home (String.mk (value.data.drop 2))
  else value

/-- Split a character list on a separator character. -/
def splitChar (sep : Char) : List Char → List (List Char)
  | [] => [[]]
  | c :: cs =>
      if c = sep then [] :: splitChar sep cs
      else
        match splitChar sep cs with
        | part :: parts => (c :: part) :: parts
        | [] => [[c]]

/-- Model of `path.dirname` (POSIX), for paths without a trailing separator:
everything before the last separator (`.` when there is none, `/` for a
root-level entry). -/
def dirname (p : String) : String :=
  let parts := (splitChar '/' p.data).map String.mk
  let pre := String.intercalate "/" parts.dropLast
  if parts.length ≤ 1 then "."
  else if pre = "" then "/"
  else pre

/-- The function `resolveImagePath` from `src/loader.ts`: empty strings and strings
containing a URI scheme separator are returned untouched; otherwise the
value is home-expanded and kept when the expansion is absolute, and
joined to `baseDir` when it is not. -/
def resolveImagePath (home : String) (baseDir : String) (p : String) : String :=
  if p = "" then p
  else if containsSub p "://" then p
  else
    let expanded := expandHome home p
    if isAbsolute expanded then expanded
    else joinPath baseDir p

/-- The function `resolvePathValue` from `src/loader.ts`, on the JSON value of an
answer's `value` field: arrays resolve each (string) element, non-empty
strings resolve, anything else is returned unchanged.  (On a non-string
array element the source would throw inside `resolveImagePath`; such
elements never occur in answer values and are left unchanged here.) -/
def resolvePathValue (home : String) (baseDir : String) (value : JVal) : JVal :=
  match value with
  | .arr xs =>
      .arr (xs.map fun v =>
        match v with
        | .str s => .str (resolveImagePath home baseDir s)
        | other => other)
  | .str s => if s ≠ "" then .str (resolveImagePath home baseDir s) else .str s
  | other => other

/-- One answer record of `resolveAnswerPaths`: rebuild the answer with its
`value` resolved and each string in its optional `attachments` array
resolved. -/
def resolveAnswer (home : String) (baseDir : String) (ans : JVal) : JVal :=
  let withValue :=
    match ans.getField "value" with
    | some v => ans.setField "value" (resolvePathValue home baseDir v)
    | none => ans
  match withValue.getField "attachments" with
  | some (.arr ps) =>
      withValue.setField "attachments"
        (.arr (ps.map fun p =>
          match p with
          | .str s => .str (resolveImagePath home baseDir s)
          | other => other))
  | _ => withValue

/-- The function `resolveAnswerPaths` from `src/loader.ts`. -/
def resolveAnswerPaths (home : String) (baseDir : String) (answers : List JVal) : List JVal :=
  answers.map (resolveAnswer home baseDir)

/-! ## JSON text (`JSON.parse` collaborator)

A recursive-descent reader for JSON text, used where the source calls
`JSON.parse`.  It restricts JSON numbers to integers (the repository's
documents carry no fractional numbers) and otherwise follows the JSON
grammar: on any other malformed input it returns `none`, as `JSON.parse`
throws. -/

/-- JSON insignificant whitespace. -/
def isJsonWs (c : Char) : Bool :=
  c = ' ' || c = '\t' || c = '\n' || c = '\r'

/-- Drop leading JSON whitespace. -/
def skipWs (cs : List Char) : List Char :=
  cs.dropWhile isJsonWs

/-- Hexadecimal digit value. -/
def hexVal (c : Char) : Option Nat :=
  if '0' ≤ c ∧ c ≤ '9' then some (c.toNat - '0'.toNat)
  else if 'a' ≤ c ∧ c ≤ 'f' then some (c.toNat - 'a'.toNat + 10)
  else if 'A' ≤ c ∧ c ≤ 'F' then some (c.toNat - 'A'.toNat + 10)
  else none

/-- Read the body of a JSON string (after the opening quote), decoding
escapes, up to the closing quote. -/
def readStringBody : List Char → Option (List Char × List Char)
  | [] => none
  | '"' :: rest => some ([], rest)
  | '\\' :: e :: rest =>
      match e with
      | '"' => (readStringBody rest).map fun (s, r) => ('"' :: s, r)
      | '\\' => (readStringBody rest).map fun (s, r) => ('\\' :: s, r)
      | '/' => (readStringBody rest).map fun (s, r) => ('/' :: s, r)
      | 'b' => (readStringBody rest).map fun (s, r) => ('\x08' :: s, r)
      | 'f' => (readStringBody rest).map fun (s, r) => ('\x0c' :: s, r)
      | 'n' => (readStringBody rest).map fun (s, r) => ('\n' :: s, r)
      | 'r' => (readStringBody rest).map fun (s, r) => ('\r' :: s, r)
      | 't' => (readStringBody rest).map fun (s, r) => ('\t' :: s, r)
      | 'u' =>
          match rest with
          | h1 :: h2 :: h3 :: h4 :: rest2 =>
              match hexVal h1, hexVal h2, hexVal h3, hexVal h4 with
              | some a, some b, some c, some d =>
                  (readStringBody rest2).map fun (s, r) =>
                    (Char.ofNat (((a * 16 + b) * 16 + c) * 16 + d) :: s, r)
              | _, _, _, _ => none
          | _ => none
      | _ => none
  | c :: rest =>
      if c.toNat < 0x20 then none
      else (readStringBody rest).map fun (s, r) => (c :: s, r)
  termination_by cs => cs.length

/-- Read a JSON integer (optional minus sign, no redundant leading zero);
fails on a fractional or exponent part (integer-only restriction). -/
def readInt (cs : List Char) : Option (Int × List Char) :=
  let (neg, cs2) := match cs with
    | '-' :: rest => (true, rest)
    | _ => (false, cs)
  let digits := cs2.takeWhile Char.isDigit
  let rest := cs2.dropWhile Char.isDigit
  if digits.isEmpty then none
  else if digits.length > 1 ∧ digits.headI = '0' then none
  else
    match rest with
    | '.' :: _ => none
    | 'e' :: _ => none
    | 'E' :: _ => none
    | _ =>
        let n : Nat := digits.foldl (fun acc c => acc * 10 + (c.toNat - '0'.toNat)) 0
        some (if neg then -(n : Int) else (n : Int), rest)

/-- Property insertion as performed by `JSON.parse`: a duplicate key keeps
its first position but takes the later value. -/
def addField (fs : List (String × JVal)) (k : String) (v : JVal) : List (String × JVal) :=
  if (fs.lookup k).isSome then setFieldIn fs k v else fs ++ [(k, v)]

mutual

/-- Read one JSON value. -/
def readVal : Nat → List Char → Option (JVal × List Char)
  | 0, _ => none
  | fuel + 1, cs =>
      match skipWs cs with
      | 'n' :: 'u' :: 'l' :: 'l' :: rest => some (.null, rest)
      | 't' :: 'r' :: 'u' :: 'e' :: rest => some (.bool true, rest)
      | 'f' :: 'a' :: 'l' :: 's' :: 'e' :: rest => some (.bool false, rest)
      | '"' :: rest =>
          (readStringBody rest).map fun (s, r) => (.str (String.mk s), r)
      | '[' :: rest =>
          match skipWs rest with
          | ']' :: rest2 => some (.arr [], rest2)
          | rest2 => readElems fuel rest2 []
      | '{' :: rest =>
          match skipWs rest with
          | '}' :: rest2 => some (.obj [], rest2)
          | rest2 => readMembers fuel rest2 []
      | c :: rest =>
          if c = '-' ∨ c.isDigit then
            (readInt (c :: rest)).map fun (n, r) => (.num n, r)
          else none
      | [] => none

/-- Read the remaining elements of a non-empty JSON array. -/
def readElems : Nat → List Char → List JVal → Option (JVal × List Char)
  | 0, _, _ => none
  | fuel + 1, cs, acc =>
      match readVal fuel cs with
      | none => none
      | some (v, rest) =>
          match skipWs rest with
          | ',' :: rest2 => readElems fuel rest2 (acc ++ [v])
          | ']' :: rest2 => some (.arr (acc ++ [v]), rest2)
          | _ => none

/-- Read the remaining members of a non-empty JSON object. -/
def readMembers : Nat → List Char → List (String × JVal) → Option (JVal × List Char)
  | 0, _, _ => none
  | fuel + 1, cs, acc =>
      match skipWs cs with
      | '"' :: rest =>
          match readStringBody rest with
          | none => none
          | some (k, rest2) =>
              match skipWs rest2 with
              | ':' :: rest3 =>
                  match readVal fuel rest3 with
                  | none => none
                  | some (v, rest4) =>
                      let acc2 := addField acc (String.mk k) v
                      match skipWs rest4 with
                      | ',' :: rest5 => readMembers fuel rest5 acc2
                      | '}' :: rest5 => some (.obj acc2, rest5)
                      | _ => none
              | _ => none
      | _ => none

end

/-- Model of `JSON.parse` on this value domain: read one value and require only
whitespace to remain. -/
def jsonParse (s : String) : Option JVal :=
  match readVal (2 * s.data.length + 2) s.data with
  | some (v, rest) => if (skipWs rest).isEmpty then some v else none
  | none => none

/-! ## Question-schema validator (`src/schema.ts`)

`validateQuestions` checks an untyped JSON document and returns it, with
one in-place normalisation: a `multi` question whose `recommended` field
is a single value gets it wrapped into a one-element array.  We follow the
source's two phases: `validateBasicStructure` (shape checks, no change)
and the semantic loop of `validateQuestions` (cross-field checks plus the
normalisation). -/

/-- The `SCHEMA_EXAMPLE` help text appended to shape errors. -/
def SCHEMA_EXAMPLE : String :=
  "Expected format:\n" ++
  "\x7b\n" ++
  "  \"title\": \"Optional Title\",\n" ++
  "  \"questions\": [\n" ++
  "    \x7b \"id\": \"q1\", \"type\": \"single\", \"question\": \"Pick one?\", \"options\": [\"A\", \"B\"] \x7d,\n" ++
  "    \x7b \"id\": \"q2\", \"type\": \"multi\", \"question\": \"Pick many?\", \"options\": [\"X\", \"Y\", \"Z\"] \x7d,\n" ++
  "    \x7b \"id\": \"q3\", \"type\": \"text\", \"question\": \"Describe?\" \x7d,\n" ++
  "    \x7b \"id\": \"q4\", \"type\": \"image\", \"question\": \"Upload?\" \x7d\n" ++
  "  ]\n" ++
  "\x7d\n" ++
  "Valid types: single, multi, text, image, info\n" ++
  "Options: array of strings or objects with \x7b label, code? \x7d"

/-- The function `getOptionLabel` from `src/schema.ts` (options reaching it are strings
or objects with a string `label`). -/
def getOptionLabelJ (option : JVal) : String :=
  match option with
  | .str s => s
  | v => ((v.getField "label").bind JVal.asStr).getD ""

/-- The JavaScript guard `v && typeof v === "object"`. -/
def isObjectLike (v : JVal) : Bool :=
  v.truthy && v.typeofObject

/-- JavaScript `.length` where it is a number: arrays and strings. -/
def jsLength : JVal → Option Nat
  | .arr xs => some xs.length
  | .str s => some s.length
  | _ => none

/-- Whether field `k` is present and a string (`typeof v.k === "string"`). -/
def fieldIsStr (v : JVal) (k : String) : Bool :=
  match v.getField k with
  | some w => w.isStr
  | none => false

/-- Whether field `k` is present and an array (`Array.isArray(v.k)`). -/
def fieldIsArr (v : JVal) (k : String) : Bool :=
  match v.getField k with
  | some w => w.isArr
  | none => false

/-- The function `validateMediaBlock` from `src/schema.ts` (the source returns the
block unchanged; only the checks matter). -/
def validateMediaBlock (block : JVal) (context : String) : Except String Unit := do
  if ¬ isObjectLike block then
    throw (context ++ ": media must be an object")
  let validMediaTypes := ["image", "chart", "mermaid", "table", "html"]
  let btype ← match (block.getField "type").bind JVal.asStr with
    | some t =>
        if validMediaTypes.contains t then pure t
        else throw (context ++ ": media.type must be one of: image, chart, mermaid, table, html")
    | none => throw (context ++ ": media.type must be one of: image, chart, mermaid, table, html")
  if btype = "image" ∧ ¬ fieldIsStr block "src" then
    throw (context ++ ": media.src required for image type")
  if btype = "chart" then
    match block.getField "chart" with
    | some chart =>
        if ¬ isObjectLike chart then
          throw (context ++ ": media.chart required for chart type")
        if ¬ fieldIsStr chart "type" then
          throw (context ++ ": media.chart.type must be a string")
        match chart.getField "data" with
        | some d =>
            if ¬ isObjectLike d then
              throw (context ++ ": media.chart.data must be an object")
        | none => throw (context ++ ": media.chart.data must be an object")
    | none => throw (context ++ ": media.chart required for chart type")
  if btype = "mermaid" ∧ ¬ fieldIsStr block "mermaid" then
    throw (context ++ ": media.mermaid must be a string")
  if btype = "table" then
    match block.getField "table" with
    | some table =>
        if ¬ isObjectLike table then
          throw (context ++ ": media.table required for table type")
        if ¬ fieldIsArr table "headers" then
          throw (context ++ ": media.table.headers must be an array")
        if ¬ fieldIsArr table "rows" then
          throw (context ++ ": media.table.rows must be an array")
    | none => throw (context ++ ": media.table required for table type")
  if btype = "html" ∧ ¬ fieldIsStr block "html" then
    throw (context ++ ": media.html required for html type")
  match block.getField "position" with
  | some p =>
      let validPositions := ["above", "below", "side"]
      match p.asStr with
      | some s =>
          if validPositions.contains s then pure ()
          else throw (context ++ ": media.position must be one of: above, below, side")
      | none => throw (context ++ ": media.position must be one of: above, below, side")
  | none => pure ()

/-- One optional string-typed `codeBlock` field check. -/
def checkOptStrField (block : JVal) (context : String) (key : String) : Except String Unit :=
  match block.getField key with
  | some v =>
      if ¬ v.isStr then throw (context ++ ": codeBlock." ++ key ++ " must be a string")
      else pure ()
  | none => pure ()

/-- The function `validateCodeBlock` from `src/schema.ts`. -/
def validateCodeBlock (block : JVal) (context : String) : Except String Unit := do
  if ¬ isObjectLike block then
    throw (context ++ ": codeBlock must be an object")
  if ¬ fieldIsStr block "code" then
    throw (context ++ ": codeBlock.code must be a string")
  checkOptStrField block context "lang"
  checkOptStrField block context "file"
  checkOptStrField block context "lines"
  checkOptStrField block context "title"
  match block.getField "highlights" with
  | some h =>
      match h with
      | .arr xs =>
          if xs.any (fun x => match x with | .num _ => false | _ => true) then
            throw (context ++ ": codeBlock.highlights must be an array of numbers")
      | _ => throw (context ++ ": codeBlock.highlights must be an array of numbers")
  | none => pure ()

/-- The function `validateOption` from `src/schema.ts`. -/
def validateOption (option : JVal) (questionId : String) (index : Nat) :
    Except String Unit := do
  match option with
  | .str _ => pure ()
  | _ =>
      if isObjectLike option then do
        match (option.getField "label").bind JVal.asStr with
        | some label =>
            match option.getField "code" with
            | some code =>
                validateCodeBlock code
                  ("Question \"" ++ questionId ++ "\" option \"" ++ label ++ "\"")
            | none => pure ()
        | none =>
            throw ("Question \"" ++ questionId ++ "\": option at index " ++
              toString index ++ " must have a \"label\" string")
      else
        throw ("Question \"" ++ questionId ++ "\": option at index " ++
          toString index ++ " must be a string or object with label")

/-- The option loop of `validateBasicStructure` (index `j` runs over the
options array). -/
def checkOptionsFrom (qid : String) (j : Nat) : List JVal → Except String Unit
  | [] => pure ()
  | o :: os => do
      validateOption o qid j
      checkOptionsFrom qid (j + 1) os

/-- The media loop of `validateBasicStructure` (index `m` runs over the
media items). -/
def checkMediaFrom (qid : String) (m : Nat) : List JVal → Except String Unit
  | [] => pure ()
  | item :: items => do
      validateMediaBlock item ("Question \"" ++ qid ++ "\" media[" ++ toString m ++ "]")
      checkMediaFrom qid (m + 1) items

/-- The per-question shape checks of `validateBasicStructure`'s loop. -/
def checkQuestionBasic (i : Nat) (q : JVal) : Except String Unit := do
  let validTypes := ["single", "multi", "text", "image", "info"]
  if ¬ isObjectLike q then
    throw ("Invalid question at index " ++ toString i ++ ": must be an object")
  let qid ← match (q.getField "id").bind JVal.asStr with
    | some s => pure s
    | none => throw ("Invalid question at index " ++ toString i ++ ": id must be a string")
  match (q.getField "type").bind JVal.asStr with
  | some t =>
      if ¬ validTypes.contains t then
        let hint := if t = "select" then " (use \"single\" instead of \"select\")" else ""
        throw ("Question \"" ++ qid ++ "\": type must be one of: single, multi, text, image, info" ++ hint)
  | none =>
      throw ("Question \"" ++ qid ++ "\": type must be one of: single, multi, text, image, info")
  if ¬ fieldIsStr q "question" then
    let hint := if q.hasField "label" || q.hasField "description" then
        " (use \"question\" field, not \"label\" or \"description\")" else ""
    throw ("Question \"" ++ qid ++ "\": \"question\" field must be a string" ++ hint)
  match q.getField "options" with
  | some opts =>
      match opts with
      | .arr os =>
          if os.isEmpty then
            throw ("Question \"" ++ qid ++ "\": options must be a non-empty array")
          checkOptionsFrom qid 0 os
      | _ => throw ("Question \"" ++ qid ++ "\": options must be a non-empty array")
  | none => pure ()
  match q.getField "context" with
  | some c =>
      if ¬ c.isStr then throw ("Question \"" ++ qid ++ "\": context must be a string")
  | none => pure ()
  match q.getField "codeBlock" with
  | some cb => validateCodeBlock cb ("Question \"" ++ qid ++ "\"")
  | none => pure ()
  match q.getField "conviction" with
  | some c =>
      match c.asStr with
      | some s =>
          if ¬ ["strong", "slight"].contains s then
            throw ("Question \"" ++ qid ++ "\": conviction must be \"strong\" or \"slight\"")
      | none => throw ("Question \"" ++ qid ++ "\": conviction must be \"strong\" or \"slight\"")
  | none => pure ()
  match q.getField "weight" with
  | some w =>
      match w.asStr with
      | some s =>
          if ¬ ["critical", "minor"].contains s then
            throw ("Question \"" ++ qid ++ "\": weight must be \"critical\" or \"minor\"")
      | none => throw ("Question \"" ++ qid ++ "\": weight must be \"critical\" or \"minor\"")
  | none => pure ()
  match q.getField "media" with
  | some media =>
      let mediaItems := match media with | .arr xs => xs | m => [m]
      checkMediaFrom qid 0 mediaItems
  | none => pure ()

/-- The question loop of `validateBasicStructure` (index `i` runs over
the questions array). -/
def checkQuestionsFrom (i : Nat) : List JVal → Except String Unit
  | [] => pure ()
  | q :: qs => do
      checkQuestionBasic i q
      checkQuestionsFrom (i + 1) qs

/-- The checks of `validateBasicStructure` (which throws on failure and
otherwise returns its input). -/
def basicChecks (data : JVal) : Except String Unit := do
  if data.isArr then
    throw ("Invalid questions file: root must be an object, not an array.\n\n" ++ SCHEMA_EXAMPLE)
  if ¬ isObjectLike data then
    throw ("Invalid questions file: must be an object.\n\n" ++ SCHEMA_EXAMPLE)
  if (data.hasField "label" || data.hasField "description") && ¬ data.hasField "questions" then
    throw ("Invalid questions file: missing \"questions\" array. Did you mean to wrap your questions?\n\n"
      ++ SCHEMA_EXAMPLE)
  match data.getField "title" with
  | some t =>
      if ¬ t.isStr then throw "Invalid questions file: title must be a string"
  | none => pure ()
  match data.getField "description" with
  | some d =>
      if ¬ d.isStr then throw "Invalid questions file: description must be a string"
  | none => pure ()
  match data.getField "questions" with
  | some (.arr qs) =>
      if qs.isEmpty then
        throw ("Invalid questions file: \"questions\" must be a non-empty array.\n\n" ++ SCHEMA_EXAMPLE)
      checkQuestionsFrom 0 qs
  | _ => throw ("Invalid questions file: \"questions\" must be a non-empty array.\n\n" ++ SCHEMA_EXAMPLE)

/-- The function `validateBasicStructure` from `src/schema.ts`: shape checks; returns
its input unchanged. -/
def validateBasicStructure (data : JVal) : Except String JVal := do
  basicChecks data
  pure data

/-- The duplicate-id scan of `validateQuestions`. -/
def checkDuplicateIds : List JVal → List String → Except String Unit
  | [], _ => pure ()
  | q :: qs, seen =>
      let qid := ((q.getField "id").bind JVal.asStr).getD ""
      if seen.contains qid then
        throw ("Duplicate question id: \"" ++ qid ++ "\"")
      else
        checkDuplicateIds qs (qid :: seen)

/-- The recommendation-membership loop of `validateQuestions` for `multi`
questions: every recommended entry must be one of the option labels. -/
def checkRecsIncluded (qid : String) (optionLabels : List String) :
    List JVal → Except String Unit
  | [] => pure ()
  | r :: rs =>
      let ok := match r.asStr with
        | some s => optionLabels.contains s
        | none => false
      if ok then checkRecsIncluded qid optionLabels rs
      else throw ("Question \"" ++ qid ++ "\": recommended \"" ++ r.toJsString ++ "\" not in options")

/-- The options-presence rules of `validateQuestions`' loop: interactive
types require a non-empty options array, the other types forbid one. -/
def checkOptionsForType (q : JVal) (qid t : String) : Except String Unit :=
  if t = "single" ∨ t = "multi" then
    match q.getField "options" with
    | some opts =>
        if ¬ opts.truthy ∨ jsLength opts = some 0 then
          throw ("Question \"" ++ qid ++ "\": options required for type \"" ++ t ++ "\"")
        else pure ()
    | none => throw ("Question \"" ++ qid ++ "\": options required for type \"" ++ t ++ "\"")
  else if t = "text" ∨ t = "image" ∨ t = "info" then
    match q.getField "options" with
    | some opts =>
        if opts.truthy then
          throw ("Question \"" ++ qid ++ "\": options not allowed for type \"" ++ t ++ "\"")
        else pure ()
    | none => pure ()
  else pure ()

/-- Field `conviction` is only allowed together with `recommended`. -/
def checkConvictionRequiresRec (q : JVal) (qid : String) : Except String Unit :=
  if q.hasField "conviction" ∧ ¬ q.hasField "recommended" then
    throw ("Question \"" ++ qid ++ "\": conviction requires recommended")
  else pure ()

/-- Computes `q.options?.map(getOptionLabel) ?? []`; options are an array here
whenever present (guaranteed by `validateBasicStructure`). -/
def optionLabelsOf (q : JVal) : List String :=
  match q.getField "options" with
  | some (.arr os) => os.map getOptionLabelJ
  | _ => []

/-- The `recommended` rules of `validateQuestions`' loop, including the
in-place normalisation of a non-array `recommended` on a `multi` question
into a one-element array. -/
def checkRecommendedRules (q : JVal) (qid t : String) : Except String JVal :=
  match q.getField "recommended" with
  | none => pure q
  | some rec =>
      if t = "text" ∨ t = "image" ∨ t = "info" then
        throw ("Question \"" ++ qid ++ "\": recommended not allowed for type \"" ++ t ++ "\"")
      else if t = "single" then
        match rec.asStr with
        | some s =>
            if (optionLabelsOf q).contains s then pure q
            else throw ("Question \"" ++ qid ++ "\": recommended \"" ++ s ++ "\" not in options")
        | none =>
            throw ("Question \"" ++ qid ++ "\": recommended must be string for single-select")
      else if t = "multi" then do
        let recs := match rec with | .arr rs => rs | r => [r]
        checkRecsIncluded qid (optionLabelsOf q) recs
        if rec.isArr then pure q
        else pure (q.setField "recommended" (.arr [rec]))
      else pure q

/-- One iteration of `validateQuestions`' semantic loop: cross-field
checks, and the in-place normalisation of a non-array `recommended` on a
`multi` question into a one-element array. -/
def checkQuestionRules (q : JVal) : Except String JVal := do
  let qid := ((q.getField "id").bind JVal.asStr).getD ""
  let t := ((q.getField "type").bind JVal.asStr).getD ""
  checkOptionsForType q qid t
  checkConvictionRequiresRec q qid
  checkRecommendedRules q qid t

/-- Traverse a list through an `Except`-valued function. -/
def mapExcept (f : α → Except String β) : List α → Except String (List β)
  | [] => pure []
  | x :: xs => do
      let y ← f x
      let ys ← mapExcept f xs
      pure (y :: ys)

/-- The function `validateQuestions` from `src/schema.ts`: basic shape validation,
duplicate-id check, cross-field checks, and in-place normalisation of
`multi` recommendations; returns the (normalised) input document. -/
def validateQuestions (data : JVal) : Except String JVal := do
  let parsed ← validateBasicStructure data
  match parsed.getField "questions" with
  | some (.arr qs) => do
      checkDuplicateIds qs []
      let qs2 ← mapExcept checkQuestionRules qs
      pure (parsed.setField "questions" (.arr qs2))
  | _ =>
      -- unreachable: `validateBasicStructure` guarantees a questions array
      throw ("Invalid questions file: \"questions\" must be a non-empty array.\n\n" ++ SCHEMA_EXAMPLE)

/-! ## Snapshot loader (`src/loader.ts`) and the snapshot codec -/

/-- Provenance metadata of a saved interview (`SavedFromMeta`). -/
structure SavedFromMeta where
  cwd : String
  branch : Option String
  sessionId : String
deriving DecidableEq

/-- The result shape of the loader (`SavedQuestionsFile`): the validated
question document plus the optional saved-interview metadata. -/
structure SavedQuestionsFile where
  doc : JVal
  savedAnswers : Option (List JVal)
  savedAt : Option String
  wasSubmitted : Option Bool
  savedFrom : Option SavedFromMeta
deriving DecidableEq

/-- The part of a string after the first occurrence of `marker`, `none`
when the marker does not occur. -/
def afterFirst (s marker : String) : Option String :=
  (findFirstSub marker.data s.data).map fun pr => String.mk pr.2

/-- The part of a string strictly before the first occurrence of
`marker`, `none` when the marker does not occur. -/
def beforeFirst (s marker : String) : Option String :=
  (findFirstSub marker.data s.data).map fun pr => String.mk pr.1

/-- The delimiter search of `loadSavedInterview`: the regex
`<script[^>]+id=["]pi-interview-data["][^>]*>(...)<\/script>` located by
its distinguishing marks — the `id="pi-interview-data"` attribute, the
closing `>` of the opening tag, and the first following `</script>`. -/
def extractBlock (html : String) : Option String := do
  let afterMarker ← afterFirst html "id=\"pi-interview-data\""
  let afterGt ← afterFirst afterMarker ">"
  beforeFirst afterGt "</script>"

/-- The tail of `loadSavedInterview` (after delimiter extraction and JSON
parsing): re-validate the embedded question document, resolve the saved
answers' paths against the snapshot's own directory, and read the
provenance fields. -/
def loadSavedData (home : String) (data : JVal) (filePath : String) :
    Except String SavedQuestionsFile := do
  let validated ← validateQuestions data
  let snapshotDir := dirname filePath
  let savedAnswers := match data.getField "savedAnswers" with
    | some (.arr xs) => some (resolveAnswerPaths home snapshotDir xs)
    | _ => none
  let savedFrom := match data.getField "savedFrom" with
    | some sf =>
        if sf.truthy && sf.typeofObject then
          match (sf.getField "cwd").bind JVal.asStr,
              (sf.getField "sessionId").bind JVal.asStr with
          | some c, some sid =>
              some ⟨c, (sf.getField "branch").bind JVal.asStr, sid⟩
          | _, _ => none
        else none
    | none => none
  pure { doc := validated
         savedAnswers := savedAnswers
         savedAt := (data.getField "savedAt").bind JVal.asStr
         wasSubmitted := match data.getField "wasSubmitted" with
           | some (.bool b) => some b
           | _ => none
         savedFrom := savedFrom }

/-- The function `loadSavedInterview` from `src/loader.ts`: locate the embedded data
block, parse it, and decode it.  A missing delimiter and an unparseable
block fail with distinct descriptive errors. -/
def loadSavedInterview (home : String) (html : String) (filePath : String) :
    Except String SavedQuestionsFile := do
  match extractBlock html with
  | none => throw "Invalid saved interview: missing embedded data"
  | some block =>
      match jsonParse block with
      | none => throw "Invalid saved interview: malformed JSON"
      | some data => loadSavedData home data filePath

/-- The function `loadQuestions` from `src/loader.ts`.  The file system becomes an
explicit function `fs` from absolute path to content (`none` models a
missing file).  The `JSON.parse` failure message detail (platform text)
is not modelled, only the fixed prefix. -/
def loadQuestions (home : String) (fs : String → Option String)
    (questionsPath : String) (cwd : String) : Except String SavedQuestionsFile := do
  let expanded := expandHome home questionsPath
  let absolutePath := if isAbsolute expanded then expanded else joinPath cwd questionsPath
  match fs absolutePath with
  | none => throw ("Questions file not found: " ++ absolutePath)
  | some content =>
      if strEndsWith absolutePath ".html" || strEndsWith absolutePath ".htm" then
        loadSavedInterview home content absolutePath
      else
        match jsonParse content with
        | none => throw "Invalid JSON in questions file"
        | some data => do
            let v ← validateQuestions data
            pure { doc := v, savedAnswers := none, savedAt := none
                   wasSubmitted := none, savedFrom := none }

/-- A nullable branch name as JSON. -/
def branchToJVal : Option String → JVal
  | some b => .str b
  | none => .null

/-- The saved-interview metadata fields of the snapshot data block. -/
def snapshotMetaFields (answers : List JVal) (savedAt : String)
    (wasSubmitted : Bool) (meta : SavedFromMeta) : List (String × JVal) :=
  [("savedAnswers", .arr answers),
   ("savedAt", .str savedAt),
   ("wasSubmitted", .bool wasSubmitted),
   ("savedFrom", .obj
     [("cwd", .str meta.cwd),
      ("branch", branchToJVal meta.branch),
      ("sessionId", .str meta.sessionId)])]

/-- Modelled from the spec: the embedded data block written by the
snapshot codec's encoder (the writer lives in `src/server.ts`, which is
not under `src/`; only its decoder `loadSavedInterview` is).  Per §4.5 the
encoder embeds the question document, the current answer mapping, a
saved-at timestamp, a submitted/not-submitted flag and provenance
(working directory, branch, session id) in one data block; the field
names are the ones the decoder reads: the document's own fields followed
by `snapshotMetaFields`. -/
def encodeSnapshot (doc : JVal) (answers : List JVal) (savedAt : String)
    (wasSubmitted : Bool) (meta : SavedFromMeta) : JVal :=
  match doc with
  | .obj fs => .obj (fs ++ snapshotMetaFields answers savedAt wasSubmitted meta)
  | v => v

/-! ## The `interview()` state machine (`src/lib.ts`)

`interview()` resolves its promise through the closure `finish`, guarded
by the `resolved` flag: the first terminal transition records the outcome,
every later terminal-triggering call returns without effect. -/

/-- Type `InterviewStatus` from `src/lib.ts`. -/
inductive InterviewStatus where
  | completed
  | cancelled
  | timeout
  | aborted
deriving DecidableEq

/-- Type `InterviewResult` from `src/lib.ts` (responses are JSON records). -/
structure InterviewResult where
  status : InterviewStatus
  responses : List JVal
  url : String
deriving DecidableEq

/-- The promise-resolution state of one `interview()` call: the `resolved`
flag, the recorded outcome, and the captured `url` variable. -/
structure LibState where
  resolved : Bool
  result : Option InterviewResult
  url : String
deriving DecidableEq

/-- The closure `finish` from `src/lib.ts`: record the outcome unless one is already
recorded (`if (resolved) return`). -/
def finish (st : LibState) (status : InterviewStatus) (responses : List JVal) : LibState :=
  if st.resolved then st
  else { st with resolved := true
                 result := some { status := status, responses := responses, url := st.url } }

/-- The terminal-triggering events reaching `finish`: the server's
`onSubmit` and `onCancel` callbacks (the cancel reason is the wire string)
and the caller's abort signal firing `handleAbort`. -/
inductive TermEvent where
  | submit (responses : List JVal)
  | cancel (reason : String) (partialResponses : Option (List JVal))
  | abortSignal
deriving DecidableEq

/-- How each terminal-triggering event invokes `finish`, as wired in
`src/lib.ts` (`onSubmit`, `onCancel`, `handleAbort`): an abort uses
`finish`'s default empty responses. -/
def applyTermEvent (st : LibState) (e : TermEvent) : LibState :=
  match e with
  | .submit rs => finish st .completed rs
  | .cancel reason p =>
      if reason = "timeout" then finish st .timeout (p.getD [])
      else finish st .cancelled (p.getD [])
  | .abortSignal => finish st .aborted []

/-- Apply a sequence of terminal-triggering events in order. -/
def runTermEvents (st : LibState) (es : List TermEvent) : LibState :=
  es.foldl applyTermEvent st

/-! ## Session start (`interview()` entry, `src/lib.ts` lines 46–70) -/

/-- How a call to `interview()` leaves its caller before any listener
exists: a synchronous failure (thrown/rejected), an immediate `aborted`
result (already-canceled signal), or proceeding to bind the listener. -/
inductive StartOutcome where
  | failure (msg : String)
  | abortedEarly (r : InterviewResult)
  | listener (doc : JVal) (savedAnswers : Option (List JVal))
deriving DecidableEq

/-- The synchronous prefix of `interview()`: question-source resolution
and validation, then the already-aborted-signal check — all before
`startInterviewServer` is invoked.  `.listener` is the only outcome that
goes on to bind a listener. -/
def interviewStart (home : String) (fs : String → Option String)
    (questions : Option JVal) (questionsPath : Option String)
    (cwd : String) (signalAborted : Bool) : StartOutcome :=
  match questions with
  | some q =>
      match validateQuestions q with
      | .error e => .failure e
      | .ok qd =>
          if signalAborted then .abortedEarly { status := .aborted, responses := [], url := "" }
          else .listener qd none
  | none =>
      match questionsPath with
      | some p =>
          match loadQuestions home fs p cwd with
          | .error e => .failure e
          | .ok loaded =>
              if signalAborted then
                .abortedEarly { status := .aborted, responses := [], url := "" }
              else .listener loaded.doc loaded.savedAnswers
      | none => .failure "Either questions or questionsPath is required"

/-! ## Post-start queuing (`src/lib.ts` lines 129–155, claim C7) -/

/-- A registry entry as returned by `getActiveSessions`. -/
structure SessionInfo where
  id : String
  title : String
  cwd : String
  gitBranch : Option String
  startedAt : Int
  url : String
deriving DecidableEq

/-- The `existingSession` record handed to `onQueued`. -/
structure ExistingSession where
  id : String
  title : String
  cwd : String
  gitBranch : Option String
  startedAt : Int
deriving DecidableEq

/-- Type `QueuedInfo` from `src/lib.ts`. -/
structure QueuedInfo where
  existingSession : ExistingSession
  url : String
deriving DecidableEq

/-- What the post-start step does toward the caller/browser. -/
inductive PostStartAction where
  | queued (info : QueuedInfo)
  | openBrowser (url : String)
  | noAction
deriving DecidableEq

/-- The post-start step of `interview()` (after `onReady`): read the
registry, and either report the first other entry via `onQueued` or open
the browser (when enabled).  The registry is only read; it is returned
unchanged. -/
def postStart (sessionId : String) (url : String) (shouldOpen : Bool)
    (registry : List SessionInfo) : PostStartAction × List SessionInfo :=
  let otherActive := registry.filter (fun s => s.id ≠ sessionId)
  match otherActive with
  | active :: _ =>
      (.queued ⟨⟨active.id, active.title, active.cwd, active.gitBranch, active.startedAt⟩, url⟩,
        registry)
  | [] => (if shouldOpen then .openBrowser url else .noAction, registry)

/-! ## Protocol layer and session state machine

Modelled from the spec: the interview session server lives in
`src/server.ts`, which is not under `src/` (only its callers, tests and
the spec describe it).  The definitions below follow §4.1–§4.2 and §5 of
the spec: the lifecycle states, the capability-token check that rejects
before any other validation and mutates nothing, the per-route effects,
and the absence of any server-side clock-driven transition. -/

/-- Modelled from the spec (§4.1): the session lifecycle states. -/
inductive SessionState where
  | listening
  | active
  | completed
  | cancelled
  | timedOut
  | aborted
deriving DecidableEq

/-- The four terminal states. -/
def SessionState.isTerminal : SessionState → Bool
  | .listening => false
  | .active => false
  | _ => true

/-- Modelled from the spec (§3): the per-session server state — the
capability token, the lifecycle state, the partial answer mapping, the
last-heartbeat timestamp, the configured timeout, and the wall clock as
seen by the session. -/
structure ServerSession where
  token : String
  state : SessionState
  answers : List JVal
  lastHeartbeat : Int
  timeoutSecs : Int
  now : Int
deriving DecidableEq

/-- The routes of the protocol layer (§4.2). -/
inductive Route where
  | form
  | health
  | heartbeat
  | submit (responses : List JVal)
  | cancel (reason : String) (partialResponses : Option (List JVal))
  | upload (name : String)
  | save
deriving DecidableEq

/-- An incoming request: the capability token presented (empty when the
query parameter is missing) and the route payload. -/
structure Request where
  token : String
  route : Route
deriving DecidableEq

/-- Wire responses of the protocol layer. -/
inductive ServerResponse where
  | accessDenied
  | formPage
  | okHealth
  | okHeartbeat
  | submitted
  | alreadyFinished (st : SessionState)
  | validationFailure
  | cancelledOk
  | uploadedPath (p : String)
  | savedOk
deriving DecidableEq

/-- The callbacks the server fires toward `interview()` on a terminal
transition (`onSubmit` / `onCancel`). -/
inductive Callback where
  | onSubmit (responses : List JVal)
  | onCancel (reason : String) (partialResponses : Option (List JVal))
deriving DecidableEq

/-- Whether a submit payload answers every interactive question (§4.1: an
`info` question never requires an answer).  Questions are summarised as
(id, type) pairs. -/
def requiredAnswered (questions : List (String × String)) (responses : List JVal) : Bool :=
  questions.all fun q =>
    q.2 = "info" ||
    responses.any fun r => r.getField "id" = some (.str q.1)

/-- Modelled from the spec (§4.2, §4.1): one request against the session.
The capability-token comparison comes first and a mismatch yields an
access-denied response with no state mutation, before any other
validation.  Mutating routes are idempotent with respect to terminal
states: once terminal they return the already-recorded outcome.  Returns
the response, the updated session, and the callback fired (if any). -/
def handleRequest (questions : List (String × String)) (sess : ServerSession)
    (req : Request) : ServerResponse × ServerSession × Option Callback :=
  if req.token ≠ sess.token then (.accessDenied, sess, none)
  else
    match req.route with
    | .form => (.formPage, sess, none)
    | .health => (.okHealth, sess, none)
    | .heartbeat =>
        if sess.state.isTerminal then (.alreadyFinished sess.state, sess, none)
        else
          (.okHeartbeat,
           { sess with lastHeartbeat := sess.now
                       state := if sess.state = .listening then .active else sess.state },
           none)
    | .submit rs =>
        if sess.state.isTerminal then (.alreadyFinished sess.state, sess, none)
        else if requiredAnswered questions rs then
          (.submitted, { sess with state := .completed, answers := rs }, some (.onSubmit rs))
        else (.validationFailure, sess, none)
    | .cancel reason p =>
        if sess.state.isTerminal then (.alreadyFinished sess.state, sess, none)
        else
          let newState := if reason = "timeout" then SessionState.timedOut
            else SessionState.cancelled
          let ans := p.getD sess.answers
          (.cancelledOk, { sess with state := newState, answers := ans },
           some (.onCancel reason (some ans)))
    | .upload name => (.uploadedPath name, sess, none)
    | .save => (.savedOk, sess, none)

/-- Events visible to the session server: an incoming request, or the
passage of wall-clock time.  Modelled from the spec (§4.1): the listener
itself does not run an independent clock, so a tick only advances the
clock and triggers no transition. -/
inductive ServerEvent where
  | request (r : Request)
  | tick (dt : Int)
deriving DecidableEq

/-- One server step. -/
def serverStep (questions : List (String × String)) (sess : ServerSession)
    (e : ServerEvent) : ServerSession :=
  match e with
  | .request r => (handleRequest questions sess r).2.1
  | .tick dt => { sess with now := sess.now + dt }

/-- A trace of server steps. -/
def serverRun (questions : List (String × String)) (sess : ServerSession)
    (es : List ServerEvent) : ServerSession :=
  es.foldl (serverStep questions) sess

/-! ## Combined system: `interview()` promise plus its session server -/

/-- The combined state of one `interview()` call: the promise-resolution
state in `src/lib.ts` and the session server it started. -/
structure SystemState where
  lib : LibState
  srv : ServerSession
deriving DecidableEq

/-- Events against the combined system: a browser request, the caller's
abort signal, or time passing. -/
inductive SystemEvent where
  | browser (r : Request)
  | abortSignal
  | tick (dt : Int)
deriving DecidableEq

/-- One combined step: browser requests go through the server and any
callback is wired into `finish` as in `src/lib.ts` (`onSubmit`,
`onCancel`); the abort signal fires `handleAbort`, which calls
`finish("aborted")` with its default empty responses, reading no server
state. -/
def systemStep (questions : List (String × String)) (sys : SystemState)
    (e : SystemEvent) : SystemState :=
  match e with
  | .browser r =>
      let out := handleRequest questions sys.srv r
      let lib2 := match out.2.2 with
        | some (.onSubmit rs) => applyTermEvent sys.lib (.submit rs)
        | some (.onCancel reason p) => applyTermEvent sys.lib (.cancel reason p)
        | none => sys.lib
      { lib := lib2, srv := out.2.1 }
  | .abortSignal => { sys with lib := applyTermEvent sys.lib .abortSignal }
  | .tick dt => { sys with srv := serverStep questions sys.srv (.tick dt) }

/-! ## The validator's normalisation, in isolation -/

/-- The only change `validateQuestions` makes to a question: on a `multi`
question whose `recommended` field is present and not an array, wrap it
into a one-element array; otherwise leave the question unchanged. -/
def normalizeRecommendedQ (q : JVal) : JVal :=
  if (q.getField "type").bind JVal.asStr = some "multi" then
    match q.getField "recommended" with
    | some rec => if rec.isArr then q else q.setField "recommended" (.arr [rec])
    | none => q
  else q

/-- The in-place normalisation `validateQuestions` performs on a whole
document: each question normalised, everything else untouched. -/
def normalizeRecommended (d : JVal) : JVal :=
  match d.getField "questions" with
  | some (.arr qs) => d.setField "questions" (.arr (qs.map normalizeRecommendedQ))
  | _ => d

/-! ## Concrete example values (used by witnesses and counterexamples) -/

/-- A `multi` question document with a single-string recommendation. -/
def exampleMultiDoc : JVal :=
  .obj [("questions", .arr [
    .obj [("id", .str "q1"), ("type", .str "multi"), ("question", .str "Pick?"),
          ("options", .arr [.str "X", .str "Y"]), ("recommended", .str "X")]])]

/-- Document `exampleMultiDoc` after normalisation. -/
def exampleMultiDocNorm : JVal :=
  .obj [("questions", .arr [
    .obj [("id", .str "q1"), ("type", .str "multi"), ("question", .str "Pick?"),
          ("options", .arr [.str "X", .str "Y"]), ("recommended", .arr [.str "X"])]])]

/-- The fields of a one-question text document (already in validated
normal form). -/
def exampleTextDocFields : List (String × JVal) :=
  [("questions", .arr [
    .obj [("id", .str "q1"), ("type", .str "text"), ("question", .str "Say?")]])]

/-- A one-question text document (already in validated normal form). -/
def exampleTextDoc : JVal :=
  .obj exampleTextDocFields

/-- A plain text answer to `exampleTextDoc`. -/
def exampleTextAnswers : List JVal :=
  [.obj [("id", .str "q1"), ("value", .str "hello")]]

/-- Example provenance metadata. -/
def exampleMeta : SavedFromMeta :=
  { cwd := "/proj", branch := some "main", sessionId := "sid1" }

/-- An answer list whose values are already absolute. -/
def exampleAbsAnswers : List JVal :=
  [.obj [("id", .str "q1"), ("value", .str "/uploads/a.png")]]

/-- A combined system state: a fresh promise, an `active` session that has
one recorded partial answer. -/
def exampleSystem : SystemState :=
  { lib := { resolved := false, result := none, url := "u" },
    srv := { token := "t", state := .active,
             answers := [.obj [("id", .str "q1"), ("value", .str "A")]],
             lastHeartbeat := 0, timeoutSecs := 600, now := 0 } }

/-! # Theorems -/

/-! ## Shared lemmas about `finish` and terminal-event sequences -/

theorem finish_of_resolved (st : LibState) (h : st.resolved = true)
    (s : InterviewStatus) (r : List JVal) : finish st s r = st := by
  simp [finish, h]

theorem applyTermEvent_of_resolved (st : LibState) (h : st.resolved = true)
    (e : TermEvent) : applyTermEvent st e = st := by
  cases e <;> simp [applyTermEvent, finish, h]

theorem applyTermEvent_resolves (st : LibState) (e : TermEvent) :
    (applyTermEvent st e).resolved = true := by
  by_cases h : st.resolved = true
  · rw [applyTermEvent_of_resolved st h]; exact h
  · cases e <;> simp only [applyTermEvent, finish, if_neg h]
    all_goals first
      | rfl
      | (split <;> rfl)

theorem runTermEvents_of_resolved (st : LibState) (h : st.resolved = true) :
    ∀ es : List TermEvent, runTermEvents st es = st := by
  intro es
  induction es with
  | nil => rfl
  | cons e es ih =>
      show runTermEvents (applyTermEvent st e) es = st
      rw [applyTermEvent_of_resolved st h]
      exact ih

/-- C1.  For every session, exactly one terminal transition is ever
recorded: the first terminal-triggering event (submit, cancel, timeout or
abort) records an outcome, and any sequence of later terminal-triggering
events leaves the promise state — hence the recorded outcome and its
responses — entirely unchanged, as a no-op rather than an error. -/
theorem firstTerminalTransitionWins (st : LibState) (h : st.resolved = false)
    (e : TermEvent) (es : List TermEvent) :
    runTermEvents st (e :: es) = applyTermEvent st e ∧
    ((applyTermEvent st e).result).isSome = true := by
  constructor
  · show runTermEvents (applyTermEvent st e) es = applyTermEvent st e
    exact runTermEvents_of_resolved _ (applyTermEvent_resolves st e) es
  · cases e <;> simp only [applyTermEvent, finish, h, if_false, Bool.false_eq_true] <;>
      first
        | rfl
        | (split <;> rfl)

theorem firstTerminalTransitionWins_witness :
    runTermEvents { resolved := false, result := none, url := "u" }
        [.submit [.str "A"], .cancel "user" none, .cancel "timeout" (some []), .abortSignal] =
      applyTermEvent { resolved := false, result := none, url := "u" } (.submit [.str "A"]) ∧
    ((applyTermEvent { resolved := false, result := none, url := "u" }
        (.submit [.str "A"])).result).isSome = true :=
  firstTerminalTransitionWins { resolved := false, result := none, url := "u" } rfl
    (.submit [.str "A"]) [.cancel "user" none, .cancel "timeout" (some []), .abortSignal]

/-! ## Claim C2: token mismatch rejected without mutation -/

/-- C2.  Modelled from the spec (the protocol layer lives in the absent
`src/server.ts`): a request whose capability token does not match the
session's token — on any route, with any payload — yields the
access-denied response, leaves the session record (state, answers,
heartbeat timestamp, clock) entirely unchanged, and fires no callback.
Because this holds for every route before its payload is even examined,
the rejection precedes all other validation. -/
theorem tokenMismatchRejectedWithoutMutation (questions : List (String × String))
    (sess : ServerSession) (req : Request) (h : req.token ≠ sess.token) :
    handleRequest questions sess req = (.accessDenied, sess, none) := by
  simp [handleRequest, h]

theorem tokenMismatchRejectedWithoutMutation_witness :
    handleRequest [("q1", "text")]
        { token := "secret", state := .active, answers := [.str "a"],
          lastHeartbeat := 5, timeoutSecs := 600, now := 9 }
        { token := "bad-token", route := .submit [.obj [("id", .str "q1")]] } =
      (.accessDenied,
        { token := "secret", state := .active, answers := [.str "a"],
          lastHeartbeat := 5, timeoutSecs := 600, now := 9 }, none) :=
  tokenMismatchRejectedWithoutMutation [("q1", "text")] _ _ (by decide)

/-! ## Claim C7: a concurrent session queues instead of opening a browser -/

/-- C7.  When, at start time, the registry holds at least one entry of
another session, the post-start step reports exactly the first such other
entry — its title, working directory, branch and start time — together
with the new session's own URL, as the queuing notification; it does not
open a browser (the action is the queuing notification, never the
browser-open action, whatever `shouldOpen` says); and the registry is
left unchanged, so the already-running session is not closed or
disrupted and both sessions remain reachable. -/
theorem concurrentSessionQueues (sessionId url : String) (shouldOpen : Bool)
    (registry : List SessionInfo) (active : SessionInfo) (rest : List SessionInfo)
    (h : registry.filter (fun s => s.id ≠ sessionId) = active :: rest) :
    postStart sessionId url shouldOpen registry =
      (.queued ⟨⟨active.id, active.title, active.cwd, active.gitBranch, active.startedAt⟩, url⟩,
        registry) := by
  simp only [postStart, h]

theorem concurrentSessionQueues_witness :
    postStart "new-id" "http://localhost:4000/?session=t2" true
        [{ id := "old-id", title := "First", cwd := "/proj", gitBranch := some "main",
           startedAt := 100, url := "http://localhost:3000/?session=t1" }] =
      (.queued ⟨⟨"old-id", "First", "/proj", some "main", 100⟩,
          "http://localhost:4000/?session=t2"⟩,
        [{ id := "old-id", title := "First", cwd := "/proj", gitBranch := some "main",
           startedAt := 100, url := "http://localhost:3000/?session=t1" }]) :=
  concurrentSessionQueues "new-id" "http://localhost:4000/?session=t2" true
    [{ id := "old-id", title := "First", cwd := "/proj", gitBranch := some "main",
       startedAt := 100, url := "http://localhost:3000/?session=t1" }]
    { id := "old-id", title := "First", cwd := "/proj", gitBranch := some "main",
      startedAt := 100, url := "http://localhost:3000/?session=t1" }
    [] (by decide)

/-! ## Claim C8: caller-contract errors are synchronous, before any listener -/

/-- C8.  Starting without any question source fails synchronously with the
exact caller-contract error, and starting with an already-canceled
cancellation signal never reaches the listener-binding outcome: whatever
the question source, the call either fails synchronously (a validation or
load error thrown before the signal check) or returns the immediate
`aborted` result with no responses.  `.listener` is the only outcome that
goes on to bind a listener, so in both cases no listener is ever bound
and the outcome is delivered at the start call itself. -/
theorem callerContractErrorsSynchronous (home : String) (fs : String → Option String)
    (questions : Option JVal) (questionsPath : Option String) (cwd : String)
    (signalAborted : Bool) :
    (questions = none → questionsPath = none →
      interviewStart home fs questions questionsPath cwd signalAborted =
        .failure "Either questions or questionsPath is required") ∧
    (signalAborted = true →
      (∃ msg, interviewStart home fs questions questionsPath cwd signalAborted = .failure msg) ∨
      interviewStart home fs questions questionsPath cwd signalAborted =
        .abortedEarly { status := .aborted, responses := [], url := "" }) := by
  constructor
  · intro hq hp
    subst hq; subst hp
    rfl
  · intro hs
    subst hs
    cases questions with
    | some q =>
        cases hv : validateQuestions q with
        | error e => exact Or.inl ⟨e, by simp [interviewStart, hv]⟩
        | ok qd => exact Or.inr (by simp [interviewStart, hv])
    | none =>
        cases questionsPath with
        | some p =>
            cases hl : loadQuestions home fs p cwd with
            | error e => exact Or.inl ⟨e, by simp [interviewStart, hl]⟩
            | ok loaded => exact Or.inr (by simp [interviewStart, hl])
        | none =>
            exact Or.inl ⟨"Either questions or questionsPath is required", rfl⟩

theorem callerContractErrorsSynchronous_witness :
    interviewStart "/h" (fun _ => none) none none "/cwd" false =
      .failure "Either questions or questionsPath is required" ∧
    ((∃ msg, interviewStart "/h" (fun _ => none) (some exampleTextDoc) none "/cwd" true =
        .failure msg) ∨
      interviewStart "/h" (fun _ => none) (some exampleTextDoc) none "/cwd" true =
        .abortedEarly { status := .aborted, responses := [], url := "" }) :=
  ⟨(callerContractErrorsSynchronous "/h" (fun _ => none) none none "/cwd" false).1 rfl rfl,
   (callerContractErrorsSynchronous "/h" (fun _ => none) (some exampleTextDoc) none "/cwd" true).2
     rfl⟩

/-! ## Claim C9: no server-side timeout without a browser -/

/-- C9.  Modelled from the spec (the listener lives in the absent
`src/server.ts` and runs no independent clock): for any configured
timeout, if no browser ever connects — that is, the only events are the
passage of time — a session in the `listening` state stays in `listening`
forever; and the only request that can ever put a session into the
`timedOut` state is a correctly-tokened cancel request with reason
`timeout` (the browser-side timer's request). -/
theorem noServerSideTimeout (questions : List (String × String)) :
    (∀ sess : ServerSession, sess.state = .listening → ∀ dts : List Int,
      (serverRun questions sess (dts.map ServerEvent.tick)).state = .listening) ∧
    (∀ (sess : ServerSession) (req : Request),
      ((handleRequest questions sess req).2.1).state = .timedOut →
      sess.state ≠ .timedOut →
      req.token = sess.token ∧ ∃ p, req.route = .cancel "timeout" p) := by
  constructor
  · intro sess hs dts
    induction dts generalizing sess with
    | nil => exact hs
    | cons dt dts ih =>
        show (serverRun questions (serverStep questions sess (.tick dt)) _).state = _
        exact ih _ hs
  · intro sess req hstate hnot
    obtain ⟨tok, route⟩ := req
    by_cases htok : tok = sess.token
    case neg =>
      rw [tokenMismatchRejectedWithoutMutation questions sess ⟨tok, route⟩ htok] at hstate
      exact absurd hstate hnot
    case pos =>
      subst htok
      refine ⟨rfl, ?_⟩
      cases route with
      | form => simp [handleRequest] at hstate; exact absurd hstate hnot
      | health => simp [handleRequest] at hstate; exact absurd hstate hnot
      | heartbeat =>
          simp only [handleRequest, ne_eq, not_true_eq_false, if_false] at hstate
          by_cases hterm : sess.state.isTerminal = true
          · simp [hterm] at hstate; exact absurd hstate hnot
          · simp only [hterm, if_false, Bool.false_eq_true] at hstate
            by_cases hl : sess.state = .listening
            · simp [hl] at hstate
            · simp [hl] at hstate; exact absurd hstate hnot
      | submit rs =>
          simp only [handleRequest, ne_eq, not_true_eq_false, if_false] at hstate
          by_cases hterm : sess.state.isTerminal = true
          · simp [hterm] at hstate; exact absurd hstate hnot
          · by_cases hreq : requiredAnswered questions rs = true
            · simp [hterm, hreq] at hstate
            · simp [hterm, hreq] at hstate; exact absurd hstate hnot
      | cancel reason p =>
          simp only [handleRequest, ne_eq, not_true_eq_false, if_false] at hstate
          by_cases hterm : sess.state.isTerminal = true
          · simp [hterm] at hstate; exact absurd hstate hnot
          · by_cases hr : reason = "timeout"
            · exact ⟨p, by rw [hr]⟩
            · simp [hterm, hr] at hstate
      | upload name => simp [handleRequest] at hstate; exact absurd hstate hnot
      | save => simp [handleRequest] at hstate; exact absurd hstate hnot

theorem noServerSideTimeout_witness :
    (serverRun [("q1", "text")]
        { token := "t", state := .listening, answers := [], lastHeartbeat := 0,
          timeoutSecs := 1, now := 0 }
        ([3600, 3600, 3600].map ServerEvent.tick)).state = .listening ∧
    ("t" = "t" ∧ ∃ p, Route.cancel "timeout" (some []) = .cancel "timeout" p) :=
  ⟨(noServerSideTimeout [("q1", "text")]).1
      { token := "t", state := .listening, answers := [], lastHeartbeat := 0,
        timeoutSecs := 1, now := 0 } rfl [3600, 3600, 3600],
   (noServerSideTimeout [("q1", "text")]).2
      { token := "t", state := .listening, answers := [], lastHeartbeat := 0,
        timeoutSecs := 1, now := 0 }
      { token := "t", route := .cancel "timeout" (some []) }
      (by decide) (by decide)⟩

/-! ## Claim C3: which answers each terminal outcome carries -/

/-- Counterexample to C3 as stated: in a session that has recorded a
partial answer, the abort triggered by the caller's cancellation signal
resolves with an empty response list — `handleAbort` calls
`finish("aborted")` with its default `[]` and never reads the recorded
partial answers — so the `aborted` outcome does not carry the partial
answers that existed at that time. -/
theorem abortDropsPartialAnswers_counterexample :
    (systemStep [("q1", "text")] exampleSystem .abortSignal).lib.result =
      some { status := .aborted, responses := [], url := "u" } ∧
    exampleSystem.srv.answers ≠ [] := by
  constructor
  · rfl
  · decide

/-- C3, amended.  On a live session with an unresolved promise:
a valid submit resolves `completed` carrying exactly the submitted final
answers; a browser cancel resolves `cancelled` and a cancel with reason
`timeout` resolves `timeout`, both carrying the partial answers the
server reports (the request's partial answers, or the session's recorded
answers); but the abort triggered by the caller's cancellation signal
resolves `aborted` carrying the empty list, not the recorded partial
answers. -/
theorem terminalOutcomesCarryAnswers (questions : List (String × String))
    (sys : SystemState) (hres : sys.lib.resolved = false)
    (hterm : sys.srv.state.isTerminal = false) :
    (∀ rs, requiredAnswered questions rs = true →
      (systemStep questions sys (.browser ⟨sys.srv.token, .submit rs⟩)).lib.result =
        some { status := .completed, responses := rs, url := sys.lib.url }) ∧
    (∀ p, (systemStep questions sys (.browser ⟨sys.srv.token, .cancel "user" p⟩)).lib.result =
        some { status := .cancelled, responses := p.getD sys.srv.answers, url := sys.lib.url }) ∧
    (∀ p, (systemStep questions sys (.browser ⟨sys.srv.token, .cancel "timeout" p⟩)).lib.result =
        some { status := .timeout, responses := p.getD sys.srv.answers, url := sys.lib.url }) ∧
    ((systemStep questions sys .abortSignal).lib.result =
        some { status := .aborted, responses := [], url := sys.lib.url }) := by
  refine ⟨?_, ?_, ?_, ?_⟩
  · intro rs hreq
    simp [systemStep, handleRequest, hterm, hreq, applyTermEvent, finish, hres]
  · intro p
    simp [systemStep, handleRequest, hterm, applyTermEvent, finish, hres]
  · intro p
    simp [systemStep, handleRequest, hterm, applyTermEvent, finish, hres]
  · simp [systemStep, applyTermEvent, finish, hres]

theorem terminalOutcomesCarryAnswers_witness :
    (systemStep [("q1", "text")] exampleSystem
        (.browser ⟨"t", .cancel "user" none⟩)).lib.result =
      some { status := .cancelled,
             responses := [.obj [("id", .str "q1"), ("value", .str "A")]], url := "u" } ∧
    (systemStep [("q1", "text")] exampleSystem .abortSignal).lib.result =
      some { status := .aborted, responses := [], url := "u" } :=
  ⟨(terminalOutcomesCarryAnswers [("q1", "text")] exampleSystem rfl rfl).2.1 none,
   (terminalOutcomesCarryAnswers [("q1", "text")] exampleSystem rfl rfl).2.2.2⟩

/-! ## Claim C5: the path-resolution rule of the snapshot decoder -/

/-- Counterexample to C5 as stated: `~/pics/a.png` contains no URI scheme
and is not absolute, so under the claimed rule it would be resolved
relative to the snapshot directory `/snap`; but `resolveImagePath` first
expands the leading `~` to the home directory and keeps the (absolute)
expansion, yielding `/home/user/pics/a.png`, not
`/snap/~/pics/a.png`. -/
theorem resolveImagePathTilde_counterexample :
    containsSub "~/pics/a.png" "://" = false ∧
    isAbsolute "~/pics/a.png" = false ∧
    resolveImagePath "/home/user" "/snap" "~/pics/a.png" = "/home/user/pics/a.png" ∧
    resolveImagePath "/home/user" "/snap" "~/pics/a.png" ≠
      joinPath "/snap" "~/pics/a.png" := by
  refine ⟨by decide, by decide, by decide, by decide⟩

/-- C5, amended: the decoder resolves a path-like answer value by this
rule — an empty value is untouched; a value containing a URI scheme
separator is untouched; otherwise a leading `~` is first expanded to the
home directory, and the value is kept when the expansion is absolute and
joined to the snapshot document's own directory when it is not.  A value
with no leading tilde is unchanged by the expansion, so for those the
original rule (scheme untouched, absolute kept, the rest joined to the
snapshot directory) does hold. -/
theorem resolveImagePathRule (home dir p : String) :
    (p = "" → resolveImagePath home dir p = p) ∧
    (containsSub p "://" = true → resolveImagePath home dir p = p) ∧
    (p ≠ "" → containsSub p "://" = false → isAbsolute (expandHome home p) = true →
      resolveImagePath home dir p = expandHome home p) ∧
    (p ≠ "" → containsSub p "://" = false → isAbsolute (expandHome home p) = false →
      resolveImagePath home dir p = joinPath dir p) ∧
    (p ≠ "~" → strStartsWith p "~/" = false → strStartsWith p "~\\" = false →
      expandHome home p = p) := by
  refine ⟨?_, ?_, ?_, ?_, ?_⟩
  · intro h; simp [resolveImagePath, h]
  · intro h
    by_cases he : p = ""
    · simp [resolveImagePath, he]
    · simp [resolveImagePath, he, h]
  · intro h1 h2 h3; simp [resolveImagePath, h1, h2, h3]
  · intro h1 h2 h3; simp [resolveImagePath, h1, h2, h3]
  · intro h1 h2 h3
    simp [expandHome, h1, h2, h3]

theorem resolveImagePathRule_witness :
    resolveImagePath "/home/user" "/snap" "http://x/y.png" = "http://x/y.png" ∧
    resolveImagePath "/home/user" "/snap" "/abs/y.png" = "/abs/y.png" ∧
    resolveImagePath "/home/user" "/snap" "img/y.png" = joinPath "/snap" "img/y.png" ∧
    expandHome "/home/user" "img/y.png" = "img/y.png" :=
  ⟨(resolveImagePathRule "/home/user" "/snap" "http://x/y.png").2.1 (by decide),
   (resolveImagePathRule "/home/user" "/snap" "/abs/y.png").2.2.1 (by decide) (by decide)
     (by decide),
   (resolveImagePathRule "/home/user" "/snap" "img/y.png").2.2.2.1 (by decide) (by decide)
     (by decide),
   (resolveImagePathRule "/home/user" "/snap" "img/y.png").2.2.2.2 (by decide) (by decide)
     (by decide)⟩

/-! ## Claim C6: decoder failures are descriptive and distinguished -/

/-- C6.  For every input document, the snapshot decoder fails when the
embedded data block's delimiter is missing or the block is not parseable,
and the two failures carry distinct descriptive errors: a missing
delimiter reports `Invalid saved interview: missing embedded data` (not a
snapshot at all), an unparseable block reports
`Invalid saved interview: malformed JSON` (a corrupt snapshot). -/
theorem decoderFailuresDistinguished (home html filePath : String) :
    (extractBlock html = none →
      loadSavedInterview home html filePath =
        .error "Invalid saved interview: missing embedded data") ∧
    (∀ block, extractBlock html = some block → jsonParse block = none →
      loadSavedInterview home html filePath =
        .error "Invalid saved interview: malformed JSON") ∧
    ("Invalid saved interview: missing embedded data" ≠
      "Invalid saved interview: malformed JSON") := by
  refine ⟨?_, ?_, by decide⟩
  · intro h
    simp [loadSavedInterview, h, throw, throwThe, MonadExceptOf.throw]
  · intro block h1 h2
    simp [loadSavedInterview, h1, h2, throw, throwThe, MonadExceptOf.throw]

theorem decoderFailuresDistinguished_witness :
    loadSavedInterview "/h" "<html>plain page</html>" "/f.html" =
      .error "Invalid saved interview: missing embedded data" ∧
    loadSavedInterview "/h"
        "<script type=\"application/json\" id=\"pi-interview-data\">\x7boops</script>"
        "/f.html" =
      .error "Invalid saved interview: malformed JSON" :=
  ⟨(decoderFailuresDistinguished "/h" "<html>plain page</html>" "/f.html").1 (by decide),
   (decoderFailuresDistinguished "/h"
       "<script type=\"application/json\" id=\"pi-interview-data\">\x7boops</script>"
       "/f.html").2.1 "\x7boops" (by decide) (by decide)⟩

/-! ## Shared lemmas about the validator -/

theorem exceptBindOk {α β : Type} {a : Except String α} {f : α → Except String β} {v : β}
    (h : a >>= f = .ok v) : ∃ u, a = .ok u ∧ f u = .ok v := by
  cases a with
  | error e => simp [Bind.bind, Except.bind] at h
  | ok u => exact ⟨u, rfl, by simpa [Bind.bind, Except.bind] using h⟩

theorem validateBasicStructure_ok {d x : JVal} (h : validateBasicStructure d = .ok x) :
    x = d := by
  unfold validateBasicStructure at h
  obtain ⟨u, _, h2⟩ := exceptBindOk h
  simpa [pure, Except.pure] using h2.symm

theorem getD_empty_eq_some {o : Option String} {s : String} (hs : s ≠ "")
    (h : o.getD "" = s) : o = some s := by
  cases o with
  | none => exact absurd h.symm hs
  | some t => simpa using h

theorem checkRecommendedRules_ok {q q' : JVal} {qid : String}
    (h : checkRecommendedRules q qid (((q.getField "type").bind JVal.asStr).getD "") = .ok q') :
    q' = normalizeRecommendedQ q := by
  unfold checkRecommendedRules at h
  cases hrec : q.getField "recommended" with
  | none =>
      rw [hrec] at h
      simp only [pure, Except.pure, Except.ok.injEq] at h
      subst h
      simp [normalizeRecommendedQ, hrec]
  | some rec =>
      rw [hrec] at h
      simp only [] at h
      split at h
      · exact absurd h (by simp [throw, throwThe, MonadExceptOf.throw])
      · split at h
        · -- single-select branch
          rename_i ht0 ht1
          have hty : (q.getField "type").bind JVal.asStr = some "single" :=
            getD_empty_eq_some (by decide) ht1
          split at h
          · split at h
            · simp only [pure, Except.pure, Except.ok.injEq] at h
              subst h
              simp [normalizeRecommendedQ, hty]
            · exact absurd h (by simp [throw, throwThe, MonadExceptOf.throw])
          · exact absurd h (by simp [throw, throwThe, MonadExceptOf.throw])
        · split at h
          · -- multi branch
            rename_i ht0 ht1 ht2
            have hty : (q.getField "type").bind JVal.asStr = some "multi" :=
              getD_empty_eq_some (by decide) ht2
            obtain ⟨u3, _, h⟩ := exceptBindOk h
            split at h
            · rename_i hisarr
              simp only [pure, Except.pure, Except.ok.injEq] at h
              subst h
              simp [normalizeRecommendedQ, hty, hrec, hisarr]
            · rename_i hisarr
              simp only [pure, Except.pure, Except.ok.injEq] at h
              subst h
              simp [normalizeRecommendedQ, hty, hrec, hisarr]
          · -- neither single nor multi (and not throwing): unchanged
            rename_i ht0 ht1 ht2
            simp only [pure, Except.pure, Except.ok.injEq] at h
            subst h
            have hty : ¬ ((q.getField "type").bind JVal.asStr = some "multi") := by
              intro hc
              exact ht2 (by simp [hc])
            simp [normalizeRecommendedQ, hty]

theorem checkQuestionRules_ok {q q' : JVal} (h : checkQuestionRules q = .ok q') :
    q' = normalizeRecommendedQ q := by
  unfold checkQuestionRules at h
  simp only [] at h
  obtain ⟨u1, _, h⟩ := exceptBindOk h
  obtain ⟨u2, _, h⟩ := exceptBindOk h
  exact checkRecommendedRules_ok h

theorem mapExcept_ok_map {α β : Type} {f : α → Except String β} {g : α → β}
    (hf : ∀ x y, f x = .ok y → y = g x) :
    ∀ {xs : List α} {ys : List β}, mapExcept f xs = .ok ys → ys = xs.map g := by
  intro xs
  induction xs with
  | nil =>
      intro ys h
      simp only [mapExcept, pure, Except.pure, Except.ok.injEq] at h
      simp [h.symm]
  | cons x xs ih =>
      intro ys h
      simp only [mapExcept] at h
      obtain ⟨y, hy, h⟩ := exceptBindOk h
      obtain ⟨ys2, hys, h⟩ := exceptBindOk h
      simp only [pure, Except.pure, Except.ok.injEq] at h
      subst h
      simp [List.map, hf x y hy, ih hys]

/-! ## Claim C10: the validator normalises in place and returns its input -/

/-- C10.  A successful `validateQuestions` returns exactly its input
document with the single in-place normalisation applied: every `multi`
question whose `recommended` field is present and not already an array
(for documents that pass validation this is precisely the single-string
case) has it replaced by the one-element array containing it, and nothing
else in the document changes — the value-level rendering of "the
validator returns its input, mutated, rather than a copy". -/
theorem validatorNormalizesInPlace {d out : JVal} (h : validateQuestions d = .ok out) :
    out = normalizeRecommended d := by
  unfold validateQuestions at h
  obtain ⟨parsed, hb, hrest⟩ := exceptBindOk h
  clear h
  have hpd : parsed = d := validateBasicStructure_ok hb
  subst hpd
  cases hget : parsed.getField "questions" with
  | none =>
      rw [hget] at hrest
      exact absurd hrest (by simp [throw, throwThe, MonadExceptOf.throw])
  | some v =>
      cases v with
      | arr qs =>
          rw [hget] at hrest
          simp only [] at hrest
          obtain ⟨u1, _, hrest⟩ := exceptBindOk hrest
          obtain ⟨qs2, hmap, hrest⟩ := exceptBindOk hrest
          have hqs2 : qs2 = qs.map normalizeRecommendedQ :=
            mapExcept_ok_map (fun x y hxy => checkQuestionRules_ok hxy) hmap
          simp only [pure, Except.pure, Except.ok.injEq] at hrest
          subst hrest
          rw [hqs2, normalizeRecommended, hget]
      | null =>
          rw [hget] at hrest
          exact absurd hrest (by simp [throw, throwThe, MonadExceptOf.throw])
      | bool b =>
          rw [hget] at hrest
          exact absurd hrest (by simp [throw, throwThe, MonadExceptOf.throw])
      | num n =>
          rw [hget] at hrest
          exact absurd hrest (by simp [throw, throwThe, MonadExceptOf.throw])
      | str s =>
          rw [hget] at hrest
          exact absurd hrest (by simp [throw, throwThe, MonadExceptOf.throw])
      | obj fs =>
          rw [hget] at hrest
          exact absurd hrest (by simp [throw, throwThe, MonadExceptOf.throw])

theorem validatorNormalizesInPlace_witness :
    exampleMultiDocNorm = normalizeRecommended exampleMultiDoc :=
  validatorNormalizesInPlace (by decide)

/-! ## Association-list lemmas for the snapshot round trip -/

theorem lookup_append (fs gs : List (String × JVal)) (k : String) :
    (fs ++ gs).lookup k = (fs.lookup k).or (gs.lookup k) := by
  induction fs with
  | nil => simp
  | cons p fs ih =>
      obtain ⟨l, v⟩ := p
      by_cases hl : k = l
      · simp [List.lookup, hl, Option.or]
      · have hbeq : (k == l) = false := beq_eq_false_iff_ne.mpr hl
        simp [List.lookup, hbeq, ih]

theorem setFieldIn_append_of_some {fs : List (String × JVal)} {k : String} {v : JVal}
    (h : fs.lookup k = some v) (gs : List (String × JVal)) (w : JVal) :
    setFieldIn (fs ++ gs) k w = setFieldIn fs k w ++ gs := by
  induction fs with
  | nil => simp [List.lookup] at h
  | cons p fs ih =>
      obtain ⟨l, u⟩ := p
      by_cases hl : l = k
      · simp [setFieldIn, hl]
      · have hbeq : (k == l) = false := beq_eq_false_iff_ne.mpr (fun hh => hl hh.symm)
        simp only [List.lookup, hbeq] at h
        simp [setFieldIn, hl, ih h]

theorem setFieldIn_self {fs : List (String × JVal)} {k : String} {v : JVal}
    (h : fs.lookup k = some v) : setFieldIn fs k v = fs := by
  induction fs with
  | nil => simp [List.lookup] at h
  | cons p fs ih =>
      obtain ⟨l, u⟩ := p
      by_cases hl : l = k
      · subst hl
        simp only [List.lookup, beq_self_eq_true, Option.some.injEq] at h
        simp [setFieldIn, h]
      · have hbeq : (k == l) = false := beq_eq_false_iff_ne.mpr (fun hh => hl hh.symm)
        simp only [List.lookup, hbeq] at h
        simp [setFieldIn, hl, ih h]

theorem setFieldIn_eq_self {fs : List (String × JVal)} {k : String} {v w : JVal}
    (h : fs.lookup k = some v) (heq : setFieldIn fs k w = fs) : w = v := by
  induction fs with
  | nil => simp [List.lookup] at h
  | cons p fs ih =>
      obtain ⟨l, u⟩ := p
      by_cases hl : l = k
      · subst hl
        simp only [List.lookup, beq_self_eq_true, Option.some.injEq] at h
        simp [setFieldIn] at heq
        rw [heq, h]
      · have hbeq : (k == l) = false := beq_eq_false_iff_ne.mpr (fun hh => hl hh.symm)
        simp only [List.lookup, hbeq] at h
        simp only [setFieldIn, if_neg hl, List.cons.injEq] at heq
        exact ih h heq.2

/-! ## Decomposing and rebuilding a successful validation -/

theorem validateQuestions_ok_parts {d out : JVal} (h : validateQuestions d = .ok out) :
    basicChecks d = .ok () ∧
    ∃ qs qs2, d.getField "questions" = some (.arr qs) ∧
      checkDuplicateIds qs [] = .ok () ∧
      mapExcept checkQuestionRules qs = .ok qs2 ∧
      out = d.setField "questions" (.arr qs2) := by
  unfold validateQuestions at h
  obtain ⟨parsed, hb, hrest⟩ := exceptBindOk h
  clear h
  have hpd : parsed = d := validateBasicStructure_ok hb
  subst hpd
  unfold validateBasicStructure at hb
  obtain ⟨u, hbc, _⟩ := exceptBindOk hb
  cases u
  refine ⟨hbc, ?_⟩
  cases hget : parsed.getField "questions" with
  | none =>
      rw [hget] at hrest
      exact absurd hrest (by simp [throw, throwThe, MonadExceptOf.throw])
  | some v =>
      cases v with
      | arr qs =>
          rw [hget] at hrest
          simp only [] at hrest
          obtain ⟨u1, hdup, hrest⟩ := exceptBindOk hrest
          cases u1
          obtain ⟨qs2, hmap, hrest⟩ := exceptBindOk hrest
          simp only [pure, Except.pure, Except.ok.injEq] at hrest
          exact ⟨qs, qs2, rfl, hdup, hmap, hrest.symm⟩
      | null =>
          rw [hget] at hrest
          exact absurd hrest (by simp [throw, throwThe, MonadExceptOf.throw])
      | bool b =>
          rw [hget] at hrest
          exact absurd hrest (by simp [throw, throwThe, MonadExceptOf.throw])
      | num n =>
          rw [hget] at hrest
          exact absurd hrest (by simp [throw, throwThe, MonadExceptOf.throw])
      | str s =>
          rw [hget] at hrest
          exact absurd hrest (by simp [throw, throwThe, MonadExceptOf.throw])
      | obj gs =>
          rw [hget] at hrest
          exact absurd hrest (by simp [throw, throwThe, MonadExceptOf.throw])

theorem optionOr_none (o : Option JVal) : o.or none = o := by
  cases o <;> rfl

theorem optionOr_some (a : JVal) (o : Option JVal) : (Option.some a).or o = some a := rfl

theorem validateQuestions_build {d : JVal} {qs qs2 : List JVal}
    (hbc : basicChecks d = .ok ())
    (hget : d.getField "questions" = some (.arr qs))
    (hdup : checkDuplicateIds qs [] = .ok ())
    (hmap : mapExcept checkQuestionRules qs = .ok qs2) :
    validateQuestions d = .ok (d.setField "questions" (.arr qs2)) := by
  unfold validateQuestions validateBasicStructure
  simp [Bind.bind, Except.bind, hbc, pure, Except.pure, hget, hdup, hmap]

/-- The root checks only read the fields `label`, `description`,
`questions` and `title`: appending bindings with other keys does not
change the outcome of `basicChecks`. -/
theorem basicChecks_append (fs gs : List (String × JVal))
    (hlabel : gs.lookup "label" = none) (hdesc : gs.lookup "description" = none)
    (hq : gs.lookup "questions" = none) (htitle : gs.lookup "title" = none) :
    basicChecks (.obj (fs ++ gs)) = basicChecks (.obj fs) := by
  simp only [basicChecks, JVal.isArr, isObjectLike, JVal.truthy, JVal.typeofObject,
    JVal.hasField, JVal.getField, lookup_append, hlabel, hdesc, hq, htitle, optionOr_none]

theorem snapshotMetaFields_lookup_other (answers : List JVal) (savedAt : String)
    (ws : Bool) (meta : SavedFromMeta) (k : String)
    (h1 : k ≠ "savedAnswers") (h2 : k ≠ "savedAt") (h3 : k ≠ "wasSubmitted")
    (h4 : k ≠ "savedFrom") :
    (snapshotMetaFields answers savedAt ws meta).lookup k = none := by
  simp [snapshotMetaFields, List.lookup, beq_eq_false_iff_ne.mpr h1,
    beq_eq_false_iff_ne.mpr h2, beq_eq_false_iff_ne.mpr h3, beq_eq_false_iff_ne.mpr h4]

theorem asStr_branchToJVal (mb : Option String) : (branchToJVal mb).asStr = mb := by
  cases mb <;> rfl

/-! ## Claim C4: the snapshot codec round trip -/

/-- C4, amended.  For a validator-normal question document (one the
validator accepts unchanged, as every document held by a running session
is) that carries none of the four snapshot metadata keys, decoding the
encoded snapshot data block succeeds, returns the question document's
`questions`, `title` and `description` unchanged, the saved-at timestamp,
the submitted flag and the provenance metadata exactly, and returns the
answer mapping transformed by path resolution against the snapshot
document's own directory — which is the identity exactly on answers whose
values are already empty, scheme-qualified or absolute, but rewrites
relative file references (and any other relative-looking string) to
absolute form. -/
theorem snapshotRoundTrip (home fp : String) (dfs : List (String × JVal))
    (answers : List JVal) (savedAt : String) (ws : Bool) (meta : SavedFromMeta)
    (hfix : validateQuestions (.obj dfs) = .ok (.obj dfs))
    (hsa : dfs.lookup "savedAnswers" = none)
    (hst : dfs.lookup "savedAt" = none)
    (hwb : dfs.lookup "wasSubmitted" = none)
    (hsf : dfs.lookup "savedFrom" = none) :
    loadSavedData home (encodeSnapshot (.obj dfs) answers savedAt ws meta) fp =
      .ok { doc := encodeSnapshot (.obj dfs) answers savedAt ws meta,
            savedAnswers := some (resolveAnswerPaths home (dirname fp) answers),
            savedAt := some savedAt,
            wasSubmitted := some ws,
            savedFrom := some meta } ∧
    (encodeSnapshot (.obj dfs) answers savedAt ws meta).getField "questions" =
      (JVal.obj dfs).getField "questions" ∧
    (encodeSnapshot (.obj dfs) answers savedAt ws meta).getField "title" =
      (JVal.obj dfs).getField "title" ∧
    (encodeSnapshot (.obj dfs) answers savedAt ws meta).getField "description" =
      (JVal.obj dfs).getField "description" := by
  obtain ⟨mc, mb, ms⟩ := meta
  obtain ⟨hbc, qs, qs2, hget, hdup, hmap, hout⟩ := validateQuestions_ok_parts hfix
  have hqlookup : dfs.lookup "questions" = some (.arr qs) := hget
  have hq2 : qs2 = qs := by
    have h1 : setFieldIn dfs "questions" (.arr qs2) = dfs := by
      have h2 : JVal.obj dfs = JVal.obj (setFieldIn dfs "questions" (.arr qs2)) := hout
      exact (JVal.obj.inj h2).symm
    exact JVal.arr.inj (setFieldIn_eq_self hqlookup h1)
  subst hq2
  have hml := snapshotMetaFields_lookup_other answers savedAt ws ⟨mc, mb, ms⟩ "label"
    (by decide) (by decide) (by decide) (by decide)
  have hmd := snapshotMetaFields_lookup_other answers savedAt ws ⟨mc, mb, ms⟩ "description"
    (by decide) (by decide) (by decide) (by decide)
  have hmq := snapshotMetaFields_lookup_other answers savedAt ws ⟨mc, mb, ms⟩ "questions"
    (by decide) (by decide) (by decide) (by decide)
  have hmt := snapshotMetaFields_lookup_other answers savedAt ws ⟨mc, mb, ms⟩ "title"
    (by decide) (by decide) (by decide) (by decide)
  have hbc2 : basicChecks
      (.obj (dfs ++ snapshotMetaFields answers savedAt ws ⟨mc, mb, ms⟩)) = .ok () := by
    rw [basicChecks_append dfs _ hml hmd hmq hmt]
    exact hbc
  have hgetenc : (JVal.obj (dfs ++ snapshotMetaFields answers savedAt ws ⟨mc, mb, ms⟩)).getField
      "questions" = some (.arr qs2) := by
    show (dfs ++ _).lookup "questions" = _
    rw [lookup_append, hqlookup]
    rfl
  have hself : (JVal.obj (dfs ++ snapshotMetaFields answers savedAt ws ⟨mc, mb, ms⟩)).setField
      "questions" (.arr qs2) = .obj (dfs ++ snapshotMetaFields answers savedAt ws ⟨mc, mb, ms⟩) := by
    show JVal.obj (setFieldIn (dfs ++ _) "questions" (.arr qs2)) = _
    rw [setFieldIn_append_of_some hqlookup, setFieldIn_self hqlookup]
  have hval : validateQuestions
      (.obj (dfs ++ snapshotMetaFields answers savedAt ws ⟨mc, mb, ms⟩)) =
      .ok (.obj (dfs ++ snapshotMetaFields answers savedAt ws ⟨mc, mb, ms⟩)) := by
    have hb := validateQuestions_build hbc2 hgetenc hdup hmap
    rw [hself] at hb
    exact hb
  refine ⟨?_, ?_, ?_, ?_⟩
  · show loadSavedData home
        (.obj (dfs ++ snapshotMetaFields answers savedAt ws ⟨mc, mb, ms⟩)) fp = _
    unfold loadSavedData
    simp only [hval, Bind.bind, Except.bind]
    have hga : (JVal.obj (dfs ++ snapshotMetaFields answers savedAt ws ⟨mc, mb, ms⟩)).getField
        "savedAnswers" = some (.arr answers) := by
      show (dfs ++ _).lookup "savedAnswers" = _
      rw [lookup_append, hsa]
      simp [snapshotMetaFields, List.lookup]
    have hgt : (JVal.obj (dfs ++ snapshotMetaFields answers savedAt ws ⟨mc, mb, ms⟩)).getField
        "savedAt" = some (.str savedAt) := by
      show (dfs ++ _).lookup "savedAt" = _
      rw [lookup_append, hst]
      simp [snapshotMetaFields, List.lookup]
    have hgw : (JVal.obj (dfs ++ snapshotMetaFields answers savedAt ws ⟨mc, mb, ms⟩)).getField
        "wasSubmitted" = some (.bool ws) := by
      show (dfs ++ _).lookup "wasSubmitted" = _
      rw [lookup_append, hwb]
      simp [snapshotMetaFields, List.lookup]
    have hgf : (JVal.obj (dfs ++ snapshotMetaFields answers savedAt ws ⟨mc, mb, ms⟩)).getField
        "savedFrom" = some (.obj
          [("cwd", .str mc),
           ("branch", branchToJVal mb),
           ("sessionId", .str ms)]) := by
      show (dfs ++ _).lookup "savedFrom" = _
      rw [lookup_append, hsf]
      simp [snapshotMetaFields, List.lookup]
    rw [hga, hgt, hgw, hgf]
    simp [pure, Except.pure, JVal.getField, List.lookup, asStr_branchToJVal,
      encodeSnapshot, JVal.truthy, JVal.typeofObject, JVal.asStr]
    cases mb <;> rfl
  · show (dfs ++ _).lookup "questions" = dfs.lookup "questions"
    rw [lookup_append, hmq, optionOr_none]
  · show (dfs ++ _).lookup "title" = dfs.lookup "title"
    rw [lookup_append, hmt, optionOr_none]
  · show (dfs ++ _).lookup "description" = dfs.lookup "description"
    rw [lookup_append, hmd, optionOr_none]

theorem snapshotRoundTrip_witness :
    loadSavedData "/home/u"
        (encodeSnapshot (.obj exampleTextDocFields) exampleAbsAnswers "t0" true exampleMeta)
        "/snap/x.html" =
      .ok { doc := encodeSnapshot (.obj exampleTextDocFields) exampleAbsAnswers "t0" true
              exampleMeta,
            savedAnswers := some (resolveAnswerPaths "/home/u" (dirname "/snap/x.html")
              exampleAbsAnswers),
            savedAt := some "t0",
            wasSubmitted := some true,
            savedFrom := some exampleMeta } ∧
    (encodeSnapshot (.obj exampleTextDocFields) exampleAbsAnswers "t0" true
        exampleMeta).getField "questions" =
      (JVal.obj exampleTextDocFields).getField "questions" ∧
    (encodeSnapshot (.obj exampleTextDocFields) exampleAbsAnswers "t0" true
        exampleMeta).getField "title" =
      (JVal.obj exampleTextDocFields).getField "title" ∧
    (encodeSnapshot (.obj exampleTextDocFields) exampleAbsAnswers "t0" true
        exampleMeta).getField "description" =
      (JVal.obj exampleTextDocFields).getField "description" :=
  snapshotRoundTrip "/home/u" "/snap/x.html" exampleTextDocFields exampleAbsAnswers "t0" true
    exampleMeta (by decide) (by decide) (by decide) (by decide) (by decide)

/-- Counterexample to C4 as stated: a session snapshot of the answer
mapping `q1 ↦ "hello"` (a plain text answer) decodes to the answer
mapping `q1 ↦ "/snap/hello"` — the decoder path-resolves every non-empty
string answer value against the snapshot's directory, so decoding the
encoded snapshot does not reproduce the same answer mapping. -/
theorem snapshotRoundTrip_counterexample :
    loadSavedData "/home/u"
        (encodeSnapshot exampleTextDoc exampleTextAnswers "t0" false exampleMeta)
        "/snap/x.html" =
      .ok { doc := encodeSnapshot exampleTextDoc exampleTextAnswers "t0" false exampleMeta,
            savedAnswers := some [.obj [("id", .str "q1"), ("value", .str "/snap/hello")]],
            savedAt := some "t0",
            wasSubmitted := some false,
            savedFrom := some exampleMeta } ∧
    some [JVal.obj [("id", .str "q1"), ("value", .str "/snap/hello")]] ≠
      some exampleTextAnswers := by
  constructor
  · decide
  · decide

end AgentInterview
